import Mathlib

/-!
Shallow embedding of `src/core/utils/cli.ts` from the static-web-apps CLI
utilities: the `argv` flag reader, the `registerProcessExit` one-shot
registrar, and the `createStartupScriptCommand` startup-script resolver.

Strings are modelled by their character lists (`Token := List Char`);
the JavaScript string operations used by the source (`trim`, `split`,
`join`, `startsWith("--")`, `includes(c)`) are given as explicit list
functions so that their behavior can be reasoned about directly.
-/

namespace SwaCli

/-- A command-line token, modelled as its list of characters. -/
abbrev Token := List Char

/-- JS `s.includes(c)` for a single character `c`. -/
def hasChar (c : Char) : Token → Bool
  | [] => false
  | a :: rest => a = c || hasChar c rest

/-- JS `s.trim()`: remove whitespace from both ends. -/
def trimChars (s : Token) : Token :=
  ((s.dropWhile Char.isWhitespace).reverse.dropWhile Char.isWhitespace).reverse

/-- JS `s.startsWith("--")`. -/
def startsWithDashDash : Token → Bool
  | [] => false
  | [_] => false
  | a :: b :: _ => a = '-' && b = '-'

/-- JS `s.split(sep)` for a one-character separator: splits on every
occurrence of `sep`; the empty string splits to `[""]`. -/
def splitOnCharFn (sep : Char) : Token → List Token
  | [] => [[]]
  | c :: rest =>
    if c = sep then [] :: splitOnCharFn sep rest
    else
      match splitOnCharFn sep rest with
      | [] => [[c]]
      | h :: t => (c :: h) :: t

/-- JS `parts.join(sep)` for a one-character separator. -/
def joinSep (sep : Char) : List Token → Token
  | [] => []
  | [x] => x
  | x :: y :: t => x ++ sep :: joinSep sep (y :: t)

/-- The result type of the `argv` flag reader: a string value, a boolean,
or the absent marker `null`. -/
inductive ArgvResult where
  | str (s : String)
  | bool (b : Bool)
  | null
deriving DecidableEq, Repr

/-- The scanning loop of `argv` over the remaining token list.

Translated from the `for` loop of `argv` in `src/core/utils/cli.ts`:
for each `entry`, if it starts with `--` and contains `=`, split on `=`
into `[key, value, ...]`; a matching trimmed key returns the trimmed
value (or `null` when the raw value is empty).  If it starts with `--`
without `=` and its trimmed form equals the flag, inspect the next
token: absent or trimmed-`--`-leading next gives `true`, a non-empty
trimmed next is returned as the value, and a whitespace-only next falls
through to the next iteration.  A `--` token matching neither way
returns `false`; tokens not starting with `--` are skipped.  An
exhausted list gives `null`. -/
def argvGo (flag : Token) : List Token → ArgvResult
  | [] => .null
  | entry :: rest =>
    if startsWithDashDash entry then
      if hasChar '=' entry then
        let parts := splitOnCharFn '=' entry
        let key := parts.headD []
        let value := parts.getD 1 []
        if flag = trimChars key then
          if value ≠ [] then .str (String.mk (trimChars value)) else .null
        else argvGo flag rest
      else if flag = trimChars entry then
        match rest with
        | [] => .bool true
        | next :: _ =>
          let nextEntry := trimChars next
          if startsWithDashDash nextEntry then .bool true
          else if nextEntry ≠ [] then .str (String.mk nextEntry)
          else argvGo flag rest
      else .bool false
    else argvGo flag rest

/-- `argv(flag)` from `src/core/utils/cli.ts`, with the process argument
list passed explicitly. -/
def argv (flags : List String) (flag : String) : ArgvResult :=
  argvGo flag.toList (flags.map String.toList)

/-- A token the `argv` loop passes over without returning: either it does
not start with `--`, or it is a `--key=value` token whose trimmed key
differs from the flag. -/
def skippedTok (flag : Token) (x : Token) : Bool :=
  if startsWithDashDash x then
    hasChar '=' x && !(decide (flag = trimChars ((splitOnCharFn '=' x).headD [])))
  else true

/-! ### `registerProcessExit`

The registrar subscribes one `wrapper` closure to the three process
termination channels (`SIGINT`, `SIGTERM`, `exit`).  The closure holds a
mutable `terminated` guard.  We model one invocation of the wrapper as a
function from the current guard value to the list of atomic actions it
performs (setting the guard, calling the callback) together with the new
guard value, and a run as the delivery of an arbitrary sequence of
termination triggers to that single wrapper. -/

/-- One of the three process termination channels the registrar
subscribes the wrapper to. -/
inductive ExitTrigger where
  | sigint
  | sigterm
  | exitEvent
deriving DecidableEq, Repr

/-- An atomic observable action of the wrapper closure: setting the
`terminated` guard, or invoking the registered callback. -/
inductive HandlerAction where
  | setGuard
  | callFn
deriving DecidableEq, Repr

/-- One invocation of the wrapper from `registerProcessExit`: if the
guard is set, do nothing; otherwise set the guard and then call the
callback, in that order. -/
def wrapper (terminated : Bool) : List HandlerAction × Bool :=
  if terminated then ([], terminated) else ([.setGuard, .callFn], true)

/-- Deliver a sequence of termination triggers to the registered
wrapper, threading the `terminated` guard; every trigger invokes the
same wrapper because `registerProcessExit` subscribes it to all three
channels. -/
def deliverTriggers : List ExitTrigger → Bool → List HandlerAction
  | [], _ => []
  | _ :: ts, g =>
    let p := wrapper g
    p.1 ++ deliverTriggers ts p.2

/-- The observable action trace of one `registerProcessExit`
registration under a given sequence of termination triggers; the guard
starts unset (`let terminated = false`). -/
def registerProcessExit (triggers : List ExitTrigger) : List HandlerAction :=
  deliverTriggers triggers false

/-- Checks that every `callFn` in an action trace is preceded by a
`setGuard` at a strictly earlier position; the flag records whether a
`setGuard` has been seen so far. -/
def guardBeforeCalls : Bool → List HandlerAction → Bool
  | _, [] => true
  | _, .setGuard :: rest => guardBeforeCalls true rest
  | seen, .callFn :: rest => seen && guardBeforeCalls seen rest

/-! ### `createStartupScriptCommand`

The resolver's external collaborators (node's `path` module, the
filesystem existence check, the working directory) are modelled as an
abstract environment; the logger is modelled by returning the list of
`logger.error` calls the function makes. -/

/-- The slice of the CLI configuration object the resolver reads:
`options.appLocation`, an optional base directory (`none` models
`undefined`). -/
structure SWACLIConfig where
  appLocation : Option String
deriving Repr

/-- One `logger.error(message, fatal)` call. -/
structure LogCall where
  message : String
  fatal : Bool
deriving DecidableEq, Repr

/-- The external collaborators of `createStartupScriptCommand`:
`process.cwd()`, `path.isAbsolute`, `fs.existsSync`, and
`path.resolve(base, p)`. -/
structure Env where
  cwd : String
  isAbsolute : String → Bool
  fsExists : String → Bool
  resolvePath : String → String → String

/-- `createStartupScriptCommand(startupScript, options)` from
`src/core/utils/cli.ts`: returns the resolved command (or `none`)
together with the list of `logger.error` calls made.

If the reference contains `:`, split on all `:`; an `npm`/`yarn` first
segment yields `"<bin> run <rest> --if-present"`, an `npx` first segment
yields `"npx <rest>"`, and any other first segment falls through to
`(none, [])`.  Otherwise the reference is a path: a non-absolute one is
resolved against `appLocation || process.cwd()`; an existing path is
returned, a missing one produces one fatal `logger.error` and `none`. -/
def createStartupScriptCommand (startupScript : String) (options : SWACLIConfig) (env : Env) :
    Option String × List LogCall :=
  if hasChar ':' startupScript.toList then
    match splitOnCharFn ':' startupScript.toList with
    | [] => (none, [])
    | npmOrYarnBin :: npmOrYarnScript =>
      let bin := String.mk npmOrYarnBin
      if bin = "npm" ∨ bin = "yarn" then
        (some (bin ++ " run " ++ String.mk (joinSep ':' npmOrYarnScript) ++ " --if-present"), [])
      else if bin = "npx" then
        (some (bin ++ " " ++ String.mk (joinSep ':' npmOrYarnScript)), [])
      else
        (none, [])
  else
    let script :=
      if env.isAbsolute startupScript then startupScript
      else
        let cwd :=
          match options.appLocation with
          | some s => if s = "" then env.cwd else s
          | none => env.cwd
        env.resolvePath cwd startupScript
    if env.fsExists script then
      (some script, [])
    else
      (none, [⟨"Script file \"" ++ script ++ "\" was not found.", true⟩])

/-! ### Basic lemmas about the string-operation models -/

theorem hasChar_append (c : Char) (l1 l2 : Token) :
    hasChar c (l1 ++ l2) = (hasChar c l1 || hasChar c l2) := by
  induction l1 with
  | nil => simp [hasChar]
  | cons a t ih => simp [hasChar, ih, Bool.or_assoc]

theorem splitOnCharFn_ne_nil (sep : Char) (l : Token) : splitOnCharFn sep l ≠ [] := by
  cases l with
  | nil => simp [splitOnCharFn]
  | cons c rest =>
    simp only [splitOnCharFn]
    split
    · simp
    · split <;> simp

theorem splitOnCharFn_of_not_mem (sep : Char) (l : Token) (h : hasChar sep l = false) :
    splitOnCharFn sep l = [l] := by
  induction l with
  | nil => rfl
  | cons c rest ih =>
    simp only [hasChar, Bool.or_eq_false_iff, decide_eq_false_iff_not] at h
    obtain ⟨h1, h2⟩ := h
    simp [splitOnCharFn, h1, ih h2]

theorem splitOnCharFn_append (sep : Char) (l1 l2 : Token) (h : hasChar sep l1 = false) :
    splitOnCharFn sep (l1 ++ sep :: l2) = l1 :: splitOnCharFn sep l2 := by
  induction l1 with
  | nil => simp [splitOnCharFn]
  | cons c rest ih =>
    simp only [hasChar, Bool.or_eq_false_iff, decide_eq_false_iff_not] at h
    obtain ⟨h1, h2⟩ := h
    simp [splitOnCharFn, h1, ih h2]

theorem joinSep_splitOnCharFn (sep : Char) (l : Token) :
    joinSep sep (splitOnCharFn sep l) = l := by
  induction l with
  | nil => rfl
  | cons c rest ih =>
    by_cases hc : c = sep
    · subst hc
      simp only [splitOnCharFn, if_pos rfl]
      cases hsp : splitOnCharFn c rest with
      | nil => exact absurd hsp (splitOnCharFn_ne_nil c rest)
      | cons h t =>
        rw [hsp] at ih
        simpa [joinSep] using ih
    · simp only [splitOnCharFn, if_neg hc]
      cases hsp : splitOnCharFn sep rest with
      | nil => exact absurd hsp (splitOnCharFn_ne_nil sep rest)
      | cons h t =>
        rw [hsp] at ih
        cases t with
        | nil => simpa [joinSep] using ih
        | cons h2 t2 =>
          simp only [joinSep] at ih ⊢
          simpa using ih

theorem startsWithDashDash_append (l1 l2 : Token) (h : startsWithDashDash l1 = true) :
    startsWithDashDash (l1 ++ l2) = true := by
  match l1 with
  | [] => simp [startsWithDashDash] at h
  | [a] => simp [startsWithDashDash] at h
  | a :: b :: t => simpa [startsWithDashDash] using h

/-! ### Lemmas about the `argv` scanning loop -/

theorem argvGo_skip (flag x : Token) (l : List Token) (h : skippedTok flag x = true) :
    argvGo flag (x :: l) = argvGo flag l := by
  unfold skippedTok at h
  by_cases hs : startsWithDashDash x = true
  · rw [if_pos hs] at h
    simp only [Bool.and_eq_true, Bool.not_eq_true', decide_eq_false_iff_not] at h
    obtain ⟨h1, h2⟩ := h
    rw [List.headD_eq_head?] at h2
    simp [argvGo, hs, h1, h2]
  · have hs' : startsWithDashDash x = false := by simpa using hs
    simp [argvGo, hs']

theorem argvGo_skip_all (flag : Token) (pre l : List Token)
    (h : ∀ x ∈ pre, skippedTok flag x = true) :
    argvGo flag (pre ++ l) = argvGo flag l := by
  induction pre with
  | nil => rfl
  | cons x t ih =>
    rw [List.cons_append, argvGo_skip flag x (t ++ l) (h x (by simp)),
      ih (fun y hy => h y (by simp [hy]))]

/-! ### Claim theorems about `argv` -/

/-- C1: the claim says `argv` performs a full linear scan, so a matching
flag occurring after a non-matching `--` token is still found.  The code
instead returns `false` as soon as it meets a `--` token without `=`
that differs from the flag: on `["--other", "--port", "4242"]` the flag
`--port` yields `false`, although the same suffix alone yields
`"4242"`. -/
theorem argv_early_return_drops_later_match :
    argv ["--other", "--port", "4242"] "--port" = ArgvResult.bool false ∧
    argv ["--port", "4242"] "--port" = ArgvResult.str "4242" := by decide

/-- C2: the claim says a flag never matched anywhere in the list yields
the absent marker `null`.  On `["--foo"]` the flag `--port` is never
matched, yet `argv` returns `false`, not `null`. -/
theorem argv_absent_flag_not_null :
    argv ["--foo"] "--port" = ArgvResult.bool false ∧
    argv ["--foo"] "--port" ≠ ArgvResult.null := by decide

/-- C9: whenever the scan reaches (after tokens it passes over) a `--`
token without `=` whose trimmed form differs from the flag, `argv`
immediately returns the boolean `false` — a fourth outcome beyond
string, `true` and `null`. -/
theorem argv_unmatched_switch_returns_false
    (flag : Token) (pre : List Token) (t : Token) (rest : List Token)
    (hpre : ∀ x ∈ pre, skippedTok flag x = true)
    (h1 : startsWithDashDash t = true) (h2 : hasChar '=' t = false)
    (h3 : flag ≠ trimChars t) :
    argvGo flag (pre ++ t :: rest) = ArgvResult.bool false := by
  rw [argvGo_skip_all flag pre _ hpre]
  simp [argvGo, h1, h2, h3]

/-- Witness for C9 at the token list `["x", "--other", "--port"]` and
flag `--port`. -/
theorem argv_unmatched_switch_returns_false_witness :
    argvGo "--port".toList (["x".toList] ++ "--other".toList :: ["--port".toList]) =
      ArgvResult.bool false :=
  argv_unmatched_switch_returns_false "--port".toList ["x".toList] "--other".toList
    ["--port".toList] (by decide) (by decide) (by decide) (by decide)

/-- C7: a token that starts with `--`, contains no `=` and trims to the
flag is a match; with no next token or a next token trimming to a `--`
form the result is `true`, and a next token with non-empty trimmed form
is returned as the (trimmed) string value. -/
theorem argv_exact_flag_next_token_rules
    (flag : Token) (pre : List Token) (t : Token) (rest : List Token)
    (hpre : ∀ x ∈ pre, skippedTok flag x = true)
    (h1 : startsWithDashDash t = true) (h2 : hasChar '=' t = false)
    (h3 : flag = trimChars t) :
    (rest = [] → argvGo flag (pre ++ t :: rest) = ArgvResult.bool true) ∧
    (∀ next rest2, rest = next :: rest2 → startsWithDashDash (trimChars next) = true →
      argvGo flag (pre ++ t :: rest) = ArgvResult.bool true) ∧
    (∀ next rest2, rest = next :: rest2 → startsWithDashDash (trimChars next) = false →
      trimChars next ≠ [] →
      argvGo flag (pre ++ t :: rest) = ArgvResult.str (String.mk (trimChars next))) := by
  have hskip : argvGo flag (pre ++ t :: rest) = argvGo flag (t :: rest) :=
    argvGo_skip_all flag pre (t :: rest) hpre
  refine ⟨?_, ?_, ?_⟩
  · intro hr; subst hr
    rw [hskip]; simp [argvGo, h1, h2, h3]
  · intro next rest2 hr hn; subst hr
    rw [hskip]; simp [argvGo, h1, h2, h3, hn]
  · intro next rest2 hr hn hne; subst hr
    rw [hskip]; simp [argvGo, h1, h2, h3, hn, hne]

/-- Witness for C7 at the token list `["--port", "4242"]` and flag
`--port`. -/
theorem argv_exact_flag_next_token_rules_witness :
    argvGo "--port".toList ("--port".toList :: ["4242".toList]) = ArgvResult.str "4242" :=
  ((argv_exact_flag_next_token_rules "--port".toList [] "--port".toList ["4242".toList]
    (by decide) (by decide) (by decide) (by decide)).2.2 "4242".toList [] rfl
    (by decide) (by decide)).trans (by decide)

/-- C6 counterexample: for the token `--port= ` (whitespace value) the
trimmed value is empty, yet `argv` returns the empty string, not the
absent marker `null` the claim requires: the emptiness test is applied
to the raw value before trimming. -/
theorem argv_whitespace_value_not_null :
    trimChars " ".toList = [] ∧
    argv ["--port= "] "--port" = ArgvResult.str "" ∧
    argv ["--port= "] "--port" ≠ ArgvResult.null := by decide

/-- C6 amended: for a matching `--key=value` token, `argv` returns the
trimmed value, except that when the RAW (untrimmed) value is empty it
returns `null`; a whitespace-only value is returned as the empty
string. -/
theorem argv_key_eq_value_rule
    (flag : Token) (pre : List Token) (key v : Token) (rest : List Token)
    (hpre : ∀ x ∈ pre, skippedTok flag x = true)
    (hk1 : startsWithDashDash key = true) (hk2 : hasChar '=' key = false)
    (hv : hasChar '=' v = false)
    (hf : flag = trimChars key) :
    argvGo flag (pre ++ (key ++ ('=' :: v)) :: rest) =
      (if v = [] then ArgvResult.null else ArgvResult.str (String.mk (trimChars v))) := by
  rw [argvGo_skip_all flag pre _ hpre]
  have hsw := startsWithDashDash_append key ('=' :: v) hk1
  have hc : hasChar '=' (key ++ ('=' :: v)) = true := by
    rw [hasChar_append]; simp [hasChar]
  have hsp : splitOnCharFn '=' (key ++ ('=' :: v)) = key :: [v] := by
    rw [splitOnCharFn_append '=' key v hk2, splitOnCharFn_of_not_mem '=' v hv]
  by_cases hve : v = []
  · subst hve
    simp [argvGo, hsw, hc, hsp, hf]
  · simp [argvGo, hsw, hc, hsp, hf, hve]

/-- Witness for C6 (amended) at the single token `--port= `: the raw
value `" "` is non-empty, so the trimmed (empty) string is returned. -/
theorem argv_key_eq_value_rule_witness :
    argvGo "--port".toList (("--port".toList ++ ('=' :: " ".toList)) :: []) =
      ArgvResult.str "" :=
  (argv_key_eq_value_rule "--port".toList [] "--port".toList " ".toList []
    (by decide) (by decide) (by decide) (by decide) (by decide)).trans (by decide)

/-- C10: for a matching token `--key=v1=v2`, `argv` returns only the
segment between the first and second `=` (trimmed), discarding
everything after the second `=`. -/
theorem argv_value_stops_at_second_eq
    (flag : Token) (pre : List Token) (key v1 v2 : Token) (rest : List Token)
    (hpre : ∀ x ∈ pre, skippedTok flag x = true)
    (hk1 : startsWithDashDash key = true) (hk2 : hasChar '=' key = false)
    (hv1 : hasChar '=' v1 = false) (hne : v1 ≠ [])
    (hf : flag = trimChars key) :
    argvGo flag (pre ++ (key ++ ('=' :: (v1 ++ ('=' :: v2)))) :: rest) =
      ArgvResult.str (String.mk (trimChars v1)) := by
  rw [argvGo_skip_all flag pre _ hpre]
  have hsw := startsWithDashDash_append key ('=' :: (v1 ++ ('=' :: v2))) hk1
  have hc : hasChar '=' (key ++ ('=' :: (v1 ++ ('=' :: v2)))) = true := by
    rw [hasChar_append]; simp [hasChar]
  have hsp : splitOnCharFn '=' (key ++ ('=' :: (v1 ++ ('=' :: v2))))
      = key :: v1 :: splitOnCharFn '=' v2 := by
    rw [splitOnCharFn_append '=' key _ hk2, splitOnCharFn_append '=' v1 v2 hv1]
  simp [argvGo, hsw, hc, hsp, hf, hne]

/-- Witness for C10 at the single token `--config=dev=x` and flag
`--config`: the value returned is `dev`, and `x` is discarded. -/
theorem argv_value_stops_at_second_eq_witness :
    argvGo "--config".toList
        (("--config".toList ++ ('=' :: ("dev".toList ++ ('=' :: "x".toList)))) :: []) =
      ArgvResult.str "dev" :=
  (argv_value_stops_at_second_eq "--config".toList [] "--config".toList "dev".toList
    "x".toList [] (by decide) (by decide) (by decide) (by decide) (by decide)
    (by decide)).trans (by decide)

/-! ### Claim theorems about `registerProcessExit` -/

theorem deliverTriggers_of_terminated (ts : List ExitTrigger) :
    deliverTriggers ts true = [] := by
  induction ts with
  | nil => rfl
  | cons t ts ih => simp [deliverTriggers, wrapper, ih]

theorem registerProcessExit_trace (ts : List ExitTrigger) :
    registerProcessExit ts =
      if ts.isEmpty then [] else [HandlerAction.setGuard, HandlerAction.callFn] := by
  cases ts with
  | nil => rfl
  | cons t ts =>
    simp [registerProcessExit, deliverTriggers, wrapper, deliverTriggers_of_terminated]

/-- C4: across any sequence of termination triggers delivered to one
registration, the callback runs at most once, and in the action trace
every callback invocation is preceded (strictly earlier) by the setting
of the `terminated` guard. -/
theorem registerProcessExit_at_most_once_guard_first (ts : List ExitTrigger) :
    (registerProcessExit ts).count HandlerAction.callFn ≤ 1 ∧
    guardBeforeCalls false (registerProcessExit ts) = true := by
  rw [registerProcessExit_trace]
  cases ts <;> simp [guardBeforeCalls]

/-! ### Claim theorems about `createStartupScriptCommand` -/

/-- C3: a startup script reference without `:` and not absolute is
resolved against `appLocation` (or the working directory when unset);
when the resolved path exists it is returned with no log call, and when
it does not exist the result is `none` with exactly one fatal
`logger.error` call. -/
theorem createStartupScriptCommand_path_rules
    (s : String) (cfg : SWACLIConfig) (env : Env)
    (hc : hasChar ':' s.toList = false)
    (habs : env.isAbsolute s = false)
    (hloc : cfg.appLocation ≠ some "") :
    createStartupScriptCommand s cfg env =
      (let resolved := env.resolvePath (cfg.appLocation.getD env.cwd) s
       if env.fsExists resolved then (some resolved, [])
       else (none, [⟨"Script file \"" ++ resolved ++ "\" was not found.", true⟩])) := by
  have hc' : hasChar ':' s.data = false := hc
  cases hal : cfg.appLocation with
  | none => simp [createStartupScriptCommand, hc', habs, hal]
  | some a =>
    have ha : ¬a = "" := fun h => hloc (by rw [hal, h])
    simp [createStartupScriptCommand, hc', habs, hal, ha]

/-- Witness for C3: the missing-file path with `appLocation` set; one
fatal log call and no command. -/
theorem createStartupScriptCommand_path_rules_witness :
    createStartupScriptCommand "missing.js" ⟨some "/app"⟩
        ⟨"/work", fun _ => false, fun _ => false, fun a b => a ++ "/" ++ b⟩ =
      (none, [⟨"Script file \"/app/missing.js\" was not found.", true⟩]) :=
  (createStartupScriptCommand_path_rules "missing.js" ⟨some "/app"⟩
    ⟨"/work", fun _ => false, fun _ => false, fun a b => a ++ "/" ++ b⟩
    (by decide) rfl (by simp)).trans rfl

/-- C5: a reference with `:` is split on all `:`; the first segment is
the binary and the remaining segments are rejoined with `:` as the
script, so for `bin` without `:` the reference `bin:rest` keeps `rest`
intact.  `npm`/`yarn` produce `"<bin> run <rest> --if-present"`, and
`npx` produces `"npx <rest>"` with no `run` and no `--if-present`. -/
theorem createStartupScriptCommand_colon_rules
    (bin rest : Token) (cfg : SWACLIConfig) (env : Env)
    (hb : hasChar ':' bin = false) :
    ((String.mk bin = "npm" ∨ String.mk bin = "yarn") →
      createStartupScriptCommand (String.mk (bin ++ (':' :: rest))) cfg env =
        (some (String.mk bin ++ " run " ++ String.mk rest ++ " --if-present"), [])) ∧
    (String.mk bin = "npx" →
      createStartupScriptCommand (String.mk (bin ++ (':' :: rest))) cfg env =
        (some ("npx " ++ String.mk rest), [])) := by
  have hlist : (String.mk (bin ++ (':' :: rest))).toList = bin ++ (':' :: rest) := rfl
  have hc : hasChar ':' (bin ++ (':' :: rest)) = true := by
    rw [hasChar_append]; simp [hasChar]
  have hsp : splitOnCharFn ':' (bin ++ (':' :: rest)) = bin :: splitOnCharFn ':' rest :=
    splitOnCharFn_append ':' bin rest hb
  have hj : joinSep ':' (splitOnCharFn ':' rest) = rest := joinSep_splitOnCharFn ':' rest
  constructor
  · intro h
    simp [createStartupScriptCommand, hlist, hc, hsp, hj, h]
  · intro h
    have h1 : ¬(String.mk bin = "npm" ∨ String.mk bin = "yarn") := by
      rw [h]; decide
    simp [createStartupScriptCommand, hlist, hc, hsp, hj, h, h1]

/-- Witness for C5: `yarn:a:b` keeps the colon inside the script name
and gets the `run ... --if-present` shape. -/
theorem createStartupScriptCommand_colon_rules_witness :
    createStartupScriptCommand (String.mk ("yarn".toList ++ (':' :: "a:b".toList)))
        ⟨none⟩ ⟨"/work", fun _ => false, fun _ => false, fun a b => a ++ "/" ++ b⟩ =
      (some "yarn run a:b --if-present", []) :=
  ((createStartupScriptCommand_colon_rules "yarn".toList "a:b".toList ⟨none⟩
    ⟨"/work", fun _ => false, fun _ => false, fun a b => a ++ "/" ++ b⟩
    (by decide)).1 (Or.inr rfl)).trans (by decide)

/-- C8: a reference with `:` whose first segment is none of `npm`,
`yarn`, `npx` yields no command and makes no logger call. -/
theorem createStartupScriptCommand_unknown_bin_silent
    (s : String) (cfg : SWACLIConfig) (env : Env)
    (hc : hasChar ':' s.toList = true)
    (h1 : String.mk ((splitOnCharFn ':' s.toList).headD []) ≠ "npm")
    (h2 : String.mk ((splitOnCharFn ':' s.toList).headD []) ≠ "yarn")
    (h3 : String.mk ((splitOnCharFn ':' s.toList).headD []) ≠ "npx") :
    createStartupScriptCommand s cfg env = (none, []) := by
  have hc' : hasChar ':' s.data = true := hc
  cases hsp : splitOnCharFn ':' s.toList with
  | nil => exact absurd hsp (splitOnCharFn_ne_nil ':' s.toList)
  | cons b scr =>
    rw [hsp] at h1 h2 h3
    simp only [List.headD_cons] at h1 h2 h3
    have hsp' : splitOnCharFn ':' s.data = b :: scr := hsp
    simp [createStartupScriptCommand, hc', hsp', h1, h2, h3]

/-- Witness for C8 at `foo:bar`: no command, no diagnostic. -/
theorem createStartupScriptCommand_unknown_bin_silent_witness :
    createStartupScriptCommand "foo:bar" ⟨none⟩
        ⟨"/work", fun _ => false, fun _ => false, fun a b => a ++ "/" ++ b⟩ =
      (none, []) :=
  createStartupScriptCommand_unknown_bin_silent "foo:bar" ⟨none⟩
    ⟨"/work", fun _ => false, fun _ => false, fun a b => a ++ "/" ++ b⟩
    (by decide) (by decide) (by decide) (by decide)

end SwaCli
